import Mathlib

/-
Verification of the rTorrent SCGI client and poll-and-broadcast cache
(src/rtorrent.rs, src/state.rs) against its natural-language specification.

The Rust code is shallowly embedded: pure fragments become Lean functions,
the streaming XML-event loop of parse_torrents_response becomes a fold over
an event list, and the poller tick becomes a pure function from the fetch
results and subscriber counts to the new cache state, the remote calls made,
and the publications emitted.  Machine integers are modelled as Nat/Int
(no overflow occurs at the modelled operations; where that matters it is
noted at the definition).
-/

namespace VibeTorrent

/-! ### Lifecycle state (rtorrent.rs, TorrentState and parse_torrents_response) -/

/-- Mirrors enum TorrentState in rtorrent.rs. -/
inductive TorrentState where
  | Downloading
  | Seeding
  | Paused
  | Hashing
  | Error
deriving DecidableEq, Repr

/-- Mirrors the state-classification chain in parse_torrents_response
(rtorrent.rs lines 345-357): hashing, then non-empty non-"0" message,
then two separate not-active branches, then complete, else downloading. -/
def classifyState (is_active is_open is_hashing complete : Bool)
    (message : String) : TorrentState :=
  if is_hashing = true then TorrentState.Hashing
  else if message.isEmpty = false ∧ message ≠ "0" then TorrentState.Error
  else if is_active = false ∧ is_open = false then TorrentState.Paused
  else if is_active = false then TorrentState.Paused
  else if complete = true then TorrentState.Seeding
  else TorrentState.Downloading

/-- The lifecycle precedence exactly as the specification words it
(spec.md section 3): hashing flag set, else non-empty non-"0" message,
else not active (regardless of the open flag), else active and complete,
otherwise downloading. -/
def specLifecycleState (is_active is_open is_hashing complete : Bool)
    (message : String) : TorrentState :=
  if is_hashing = true then TorrentState.Hashing
  else if message.isEmpty = false ∧ message ≠ "0" then TorrentState.Error
  else if is_active = false then TorrentState.Paused
  else if complete = true then TorrentState.Seeding
  else TorrentState.Downloading

/-! ### Parsing of scalar values (Rust str::parse with unwrap_or(0)) -/

/-- Decimal digit run to a natural number; none when empty or a non-digit
appears (the failure cases of Rust integer parsing). -/
def digitsToNat? (cs : List Char) : Option Nat :=
  if cs = [] then none
  else if cs.all (fun c => c.isDigit) then
    some (cs.foldl (fun n c => n * 10 + (c.toNat - 48)) 0)
  else none

/-- Model of str::parse::<i64>: optional sign, a non-empty digit run, and
the value must fit in a signed 64-bit integer, otherwise the parse fails. -/
def parseI64? (s : String) : Option Int :=
  match s.toList with
  | '+' :: rest =>
    (digitsToNat? rest).bind
      (fun n => if n ≤ 9223372036854775807 then some (Int.ofNat n) else none)
  | '-' :: rest =>
    (digitsToNat? rest).bind
      (fun n => if n ≤ 9223372036854775808 then some (-(Int.ofNat n)) else none)
  | cs =>
    (digitsToNat? cs).bind
      (fun n => if n ≤ 9223372036854775807 then some (Int.ofNat n) else none)

/-- Rust's parse::<i64>().unwrap_or(0). -/
def parseI64D (s : String) : Int := (parseI64? s).getD 0

/-! ### Decoded torrent record (rtorrent.rs, struct Torrent)

The ratio field of the source is an f64 obtained by parse::<f64>().
unwrap_or(0.0) / 1000.0; floating point is outside this embedding, so the
model keeps the raw string of value 11 (none of the verified claims
concerns the numeric ratio). -/

/-- Mirrors struct Torrent (rtorrent.rs lines 20-34), ratio kept raw. -/
structure Torrent where
  hash : String
  name : String
  size_bytes : Int
  completed_bytes : Int
  down_rate : Int
  up_rate : Int
  is_active : Bool
  is_open : Bool
  is_hashing : Bool
  complete : Bool
  message : String
  ratioRaw : String
  state : TorrentState
deriving DecidableEq, Repr

/-- Builds the Torrent pushed at a row boundary (rtorrent.rs lines 340-373)
from the row's positional values.  The source indexes current_values[0..11]
under the guard len >= 12; getD with default "" agrees with that indexing
whenever the guard holds. -/
def mkTorrent (vs : List String) : Torrent :=
  let is_active := parseI64D (vs.getD 6 "") == 1
  let is_open := parseI64D (vs.getD 7 "") == 1
  let is_hashing := parseI64D (vs.getD 8 "") == 1
  let complete := parseI64D (vs.getD 9 "") == 1
  { hash := vs.getD 0 ""
    name := vs.getD 1 ""
    size_bytes := parseI64D (vs.getD 2 "")
    completed_bytes := parseI64D (vs.getD 3 "")
    down_rate := parseI64D (vs.getD 4 "")
    up_rate := parseI64D (vs.getD 5 "")
    is_active := is_active
    is_open := is_open
    is_hashing := is_hashing
    complete := complete
    message := vs.getD 10 ""
    ratioRaw := vs.getD 11 ""
    state := classifyState is_active is_open is_hashing complete
      (vs.getD 10 "") }

/-! ### The streaming decoder (rtorrent.rs, parse_torrents_response)

The quick_xml event stream is embedded as a list of events; text events
carry the already-unescaped content (the source applies e.unescape()).
The Err arm of the source returns an XML error for a malformed document;
event lists model the well-tokenised stream, which is all the verified
claims quantify over. -/

/-- One quick_xml event as consumed by parse_torrents_response. -/
inductive XmlEvent where
  | startTag (name : String)
  | endTag (name : String)
  | text (content : String)
  | emptyTag (name : String)
deriving DecidableEq, Repr

/-- The scalar leaf tags of the decoder: b"i4" | b"i8" | b"int" |
b"string" | b"double". -/
def isScalarTag (n : String) : Bool :=
  n = "i4" || n = "i8" || n = "int" || n = "string" || n = "double"

/-- The mutable loop state of parse_torrents_response (lines 304-313). -/
structure ParseState where
  torrents : List Torrent
  currentValues : List String
  inValueTag : Bool
  valueCollected : Bool
  inArray : Bool
  arrayDepth : Int
deriving DecidableEq, Repr

/-- One iteration of the match in the decoder loop (lines 316-413). -/
def step (s : ParseState) (e : XmlEvent) : ParseState :=
  match e with
  | XmlEvent.startTag n =>
    if n = "array" then
      let d := s.arrayDepth + 1
      if d = 2 then
        { s with arrayDepth := d, inArray := true, currentValues := [] }
      else { s with arrayDepth := d }
    else if isScalarTag n then
      if s.inArray then { s with inValueTag := true, valueCollected := false }
      else s
    else s
  | XmlEvent.endTag n =>
    if n = "array" then
      let s1 :=
        if s.arrayDepth = 2 ∧ 12 ≤ s.currentValues.length then
          { s with torrents := s.torrents ++ [mkTorrent s.currentValues] }
        else s
      let d := s1.arrayDepth - 1
      { s1 with arrayDepth := d,
                inArray := if d < 2 then false else s1.inArray }
    else if isScalarTag n then
      let s1 :=
        if s.inValueTag = true ∧ s.valueCollected = false ∧ s.inArray = true
        then { s with currentValues := s.currentValues ++ [""] }
        else s
      { s1 with inValueTag := false, valueCollected := false }
    else s
  | XmlEvent.text c =>
    if s.inValueTag = true ∧ s.inArray = true then
      { s with currentValues := s.currentValues ++ [c],
               valueCollected := true }
    else s
  | XmlEvent.emptyTag n =>
    if s.inArray = true ∧ isScalarTag n = true then
      { s with currentValues := s.currentValues ++ [""] }
    else s

/-- The loop's initial state. -/
def initState : ParseState :=
  { torrents := [], currentValues := [], inValueTag := false,
    valueCollected := false, inArray := false, arrayDepth := 0 }

/-- parse_torrents_response over an event stream: fold the loop body and
return the accumulated torrents. -/
def parseTorrents (events : List XmlEvent) : List Torrent :=
  (events.foldl step initState).torrents

/-! ### Event streams of well-formed multicall responses -/

/-- Events of one scalar value inside a row: quick_xml with trim_text(true)
emits no text event for empty content, so an empty value is a bare
open/close pair. -/
def valueEvents (v : String) : List XmlEvent :=
  if v.isEmpty then [XmlEvent.startTag "string", XmlEvent.endTag "string"]
  else [XmlEvent.startTag "string", XmlEvent.text v,
        XmlEvent.endTag "string"]

/-- Events of one value element including its XML-RPC value wrapper. -/
def wrappedValueEvents (v : String) : List XmlEvent :=
  [XmlEvent.startTag "value"] ++ valueEvents v ++ [XmlEvent.endTag "value"]

/-- Events of one row: an inner array/data pair holding the row's values. -/
def rowEvents (vs : List String) : List XmlEvent :=
  [XmlEvent.startTag "value", XmlEvent.startTag "array",
   XmlEvent.startTag "data"] ++
  vs.flatMap wrappedValueEvents ++
  [XmlEvent.endTag "data", XmlEvent.endTag "array",
   XmlEvent.endTag "value"]

/-- Events of a whole multicall response: the outer array of rows with the
surrounding methodResponse / params / param / value wrappers. -/
def responseEvents (rows : List (List String)) : List XmlEvent :=
  [XmlEvent.startTag "methodResponse", XmlEvent.startTag "params",
   XmlEvent.startTag "param", XmlEvent.startTag "value",
   XmlEvent.startTag "array", XmlEvent.startTag "data"] ++
  rows.flatMap rowEvents ++
  [XmlEvent.endTag "data", XmlEvent.endTag "array",
   XmlEvent.endTag "value", XmlEvent.endTag "param",
   XmlEvent.endTag "params", XmlEvent.endTag "methodResponse"]

/-! ### Decoder lemmas -/

lemma step_startTag_other (s : ParseState) (n : String) (h1 : ¬ n = "array")
    (h2 : isScalarTag n = false) : step s (XmlEvent.startTag n) = s := by
  simp [step, h1, h2]

lemma step_endTag_other (s : ParseState) (n : String) (h1 : ¬ n = "array")
    (h2 : isScalarTag n = false) : step s (XmlEvent.endTag n) = s := by
  simp [step, h1, h2]

lemma foldl_wrappedValueEvents (v : String) (s : ParseState)
    (hA : s.inArray = true) (h1 : s.inValueTag = false)
    (h2 : s.valueCollected = false) :
    List.foldl step s (wrappedValueEvents v) =
      { s with currentValues := s.currentValues ++ [v] } := by
  obtain ⟨ts, cur, ivt, vc, ia, d⟩ := s
  simp only at hA h1 h2
  subst hA h1 h2
  by_cases hv : v.isEmpty
  · have hv' : v = "" := (String.isEmpty_iff v).mp hv
    subst hv'
    simp [wrappedValueEvents, valueEvents, String.isEmpty, step,
          isScalarTag]
  · simp [wrappedValueEvents, valueEvents, hv, step, isScalarTag]

lemma foldl_valuesChain (vs : List String) (s : ParseState)
    (hA : s.inArray = true) (h1 : s.inValueTag = false)
    (h2 : s.valueCollected = false) :
    List.foldl step s (vs.flatMap wrappedValueEvents) =
      { s with currentValues := s.currentValues ++ vs } := by
  induction vs generalizing s with
  | nil => simp
  | cons v rest ih =>
    rw [List.flatMap_cons, List.foldl_append,
        foldl_wrappedValueEvents v s hA h1 h2,
        ih { s with currentValues := s.currentValues ++ [v] } hA h1 h2]
    simp

lemma foldl_rowEvents (vs : List String) (ts : List Torrent)
    (cur : List String) :
    List.foldl step
      { torrents := ts, currentValues := cur, inValueTag := false,
        valueCollected := false, inArray := false, arrayDepth := 1 }
      (rowEvents vs) =
      { torrents :=
          ts ++ (if 12 ≤ vs.length then [mkTorrent vs] else []),
        currentValues := vs, inValueTag := false, valueCollected := false,
        inArray := false, arrayDepth := 1 } := by
  rw [rowEvents]
  rw [show ([XmlEvent.startTag "value", XmlEvent.startTag "array",
        XmlEvent.startTag "data"] : List XmlEvent) ++
        vs.flatMap wrappedValueEvents ++
        [XmlEvent.endTag "data", XmlEvent.endTag "array",
         XmlEvent.endTag "value"] =
      [XmlEvent.startTag "value", XmlEvent.startTag "array",
       XmlEvent.startTag "data"] ++
      (vs.flatMap wrappedValueEvents ++
       [XmlEvent.endTag "data", XmlEvent.endTag "array",
        XmlEvent.endTag "value"]) from by simp]
  rw [List.foldl_append]
  rw [show List.foldl step
      { torrents := ts, currentValues := cur, inValueTag := false,
        valueCollected := false, inArray := false, arrayDepth := 1 }
      [XmlEvent.startTag "value", XmlEvent.startTag "array",
       XmlEvent.startTag "data"] =
      { torrents := ts, currentValues := [], inValueTag := false,
        valueCollected := false, inArray := true, arrayDepth := 2 } from by
    simp [step, isScalarTag]]
  rw [List.foldl_append, foldl_valuesChain vs _ rfl rfl rfl]
  by_cases hlen : 12 ≤ vs.length
  · simp [step, isScalarTag, hlen]
  · simp [step, isScalarTag, hlen]

lemma foldl_rowsChain (rows : List (List String)) (ts : List Torrent)
    (cur : List String) :
    List.foldl step
      { torrents := ts, currentValues := cur, inValueTag := false,
        valueCollected := false, inArray := false, arrayDepth := 1 }
      (rows.flatMap rowEvents) =
      { torrents :=
          ts ++ (rows.filter (fun vs => 12 ≤ vs.length)).map mkTorrent,
        currentValues := rows.foldl (fun _ vs => vs) cur,
        inValueTag := false, valueCollected := false,
        inArray := false, arrayDepth := 1 } := by
  induction rows generalizing ts cur with
  | nil => simp
  | cons r rest ih =>
    rw [List.flatMap_cons, List.foldl_append, foldl_rowEvents r ts cur,
        ih]
    by_cases hr : 12 ≤ r.length
    · simp [hr, List.filter_cons]
    · simp [hr, List.filter_cons]

/-! ### The poll-and-broadcast cache (state.rs, spawn_poller/refresh_cache)

One tick of the poller loop (state.rs lines 104-147) is embedded as a pure
function of the subscriber-count snapshots taken at the top of the tick,
the results the remote fetches would deliver, and the current cache slots.
It returns the new cache slots, the remote client calls performed during
the tick, and the publications sent on the two feeds.  The items carried by
the poller are modelled with exactly the fields the loop reads from them
(down_rate, up_rate, free_disk_space). -/

/-- The per-item fields read by the poller loop. -/
structure PollTorrent where
  down_rate : Int
  up_rate : Int
  free_disk_space : Int
deriving DecidableEq, Repr

/-- Mirrors struct GlobalStats (rtorrent.rs lines 130-135). -/
structure GlobalStats where
  down_rate : Int
  up_rate : Int
  free_disk_space : Int
  active_peers : Int
deriving DecidableEq, Repr

/-- A remote call the poller can make on the rtorrent client. -/
inductive RemoteCall where
  | getTorrents
  | getGlobalStats
deriving DecidableEq, Repr

/-- A publication on one of the two broadcast feeds. -/
inductive FeedEvent where
  | torrentsPublished (ts : List PollTorrent)
  | statsPublished (st : GlobalStats)
deriving DecidableEq, Repr

/-- The last_torrents / last_stats slots of AppState. -/
structure PollerCache where
  lastTorrents : Option (List PollTorrent)
  lastStats : Option GlobalStats
deriving DecidableEq, Repr

/-- One tick of the poller loop (state.rs lines 104-147).  need_torrents
and need_stats are the receiver counts tested at the top of the tick;
torrentsResult and statsResult are what get_torrents and get_global_stats
would return if called.  The torrents fetch is performed unconditionally
("Always fetch torrents to get accurate speed data"); the stats fetch is
performed only when the torrents fetch succeeded and need_stats holds.
Failed fetches are logged and skipped. -/
def pollTick (need_torrents need_stats : Bool)
    (torrentsResult : Except String (List PollTorrent))
    (statsResult : Except String GlobalStats)
    (c : PollerCache) :
    PollerCache × List RemoteCall × List FeedEvent :=
  match torrentsResult with
  | Except.ok torrents =>
    let c1 := if need_torrents then { c with lastTorrents := some torrents }
              else c
    let pubs1 := if need_torrents then [FeedEvent.torrentsPublished torrents]
                 else []
    if need_stats then
      let total_down_rate := (torrents.map (fun t => t.down_rate)).sum
      let total_up_rate := (torrents.map (fun t => t.up_rate)).sum
      let free_disk_space :=
        ((torrents.head?).map (fun t => t.free_disk_space)).getD 0
      match statsResult with
      | Except.ok stats0 =>
        let stats1 := { stats0 with down_rate := total_down_rate,
                                    up_rate := total_up_rate }
        let stats := if 0 < free_disk_space then
            { stats1 with free_disk_space := free_disk_space }
          else stats1
        ({ c1 with lastStats := some stats },
         [RemoteCall.getTorrents, RemoteCall.getGlobalStats],
         pubs1 ++ [FeedEvent.statsPublished stats])
      | Except.error _ =>
        (c1, [RemoteCall.getTorrents, RemoteCall.getGlobalStats], pubs1)
    else (c1, [RemoteCall.getTorrents], pubs1)
  | Except.error _ => (c, [RemoteCall.getTorrents], [])

/-- AppState::refresh_cache (state.rs lines 79-90): fetch the torrents
once; on success replace the cached snapshot and publish it, on failure
log and leave everything unchanged. -/
def refreshCache (torrentsResult : Except String (List PollTorrent))
    (c : PollerCache) : PollerCache × List FeedEvent :=
  match torrentsResult with
  | Except.ok torrents =>
    ({ c with lastTorrents := some torrents },
     [FeedEvent.torrentsPublished torrents])
  | Except.error _ => (c, [])

/-! ### SCGI request framing (rtorrent.rs, send_request lines 169-203)

The request is built over bytes; ASCII text fragments are embedded through
strBytes (each of the header constants and the decimal digits of the two
lengths are ASCII, where code points and UTF-8 bytes coincide).  The Rust
format! call concatenates its ASCII pieces with embedded NUL bytes, which
is the byte-list concatenation below; headers.len() is the byte length of
that concatenation. -/

/-- Bytes of an ASCII string. -/
def strBytes (s : String) : List Nat := s.toList.map Char.toNat

/-- The SCGI header block of send_request (lines 174-177):
CONTENT_LENGTH NUL len NUL SCGI NUL 1 NUL REQUEST_METHOD NUL POST NUL
REQUEST_URI NUL /RPC2 NUL. -/
def scgiHeaders (content_length : Nat) : List Nat :=
  strBytes "CONTENT_LENGTH" ++ [0] ++
  strBytes (toString content_length) ++ [0] ++
  strBytes "SCGI" ++ [0] ++ strBytes "1" ++ [0] ++
  strBytes "REQUEST_METHOD" ++ [0] ++ strBytes "POST" ++ [0] ++
  strBytes "REQUEST_URI" ++ [0] ++ strBytes "/RPC2" ++ [0]

/-- The framed request of send_request (lines 179-184): the decimal byte
length of the header block, a colon, the header block, a comma (byte 44),
then the raw payload. -/
def frame (xml_body : List Nat) : List Nat :=
  let headers := scgiHeaders xml_body.length
  strBytes (toString headers.length ++ ":") ++ headers ++ [44] ++ xml_body

/-- The request envelope as the specification words it (spec.md section 6):
a null-byte-separated sequence of key/value pairs carrying the content
length, the protocol-version marker, the request method POST and the
resource path /RPC2, prefixed by its own decimal byte length and a colon
(netstring style), followed by a comma and then the raw payload bytes with
nothing after the payload. -/
def specEnvelope (payload : List Nat) : List Nat :=
  let pairs : List (List Nat × List Nat) :=
    [(strBytes "CONTENT_LENGTH", strBytes (toString payload.length)),
     (strBytes "SCGI", strBytes "1"),
     (strBytes "REQUEST_METHOD", strBytes "POST"),
     (strBytes "REQUEST_URI", strBytes "/RPC2")]
  let headerBlock := pairs.flatMap (fun kv => kv.1 ++ [0] ++ kv.2 ++ [0])
  strBytes (toString headerBlock.length) ++ [58] ++ headerBlock ++ [44] ++
    payload

/-! ### Response unframing (rtorrent.rs, send_request lines 195-202)

The response text (after from_utf8_lossy) is modelled as a list of
characters; str::find becomes the index of the first occurrence of the
needle. -/

/-- Index of the first occurrence of needle in hay (Rust str::find on a
string pattern). -/
def findSub (needle : List Char) : List Char → Option Nat
  | [] => if needle.isPrefixOf ([] : List Char) then some 0 else none
  | c :: t =>
    if needle.isPrefixOf (c :: t) then some 0
    else (findSub needle t).map (fun i => i + 1)

/-- The needle occurs in hay at position i. -/
def occursAt (needle hay : List Char) (i : Nat) : Prop :=
  needle.isPrefixOf (hay.drop i) = true

instance (needle hay : List Char) (i : Nat) :
    Decidable (occursAt needle hay i) := by
  unfold occursAt
  infer_instance

/-- The CRLF-CRLF blank-line separator. -/
def crlfcrlf : List Char :=
  [Char.ofNat 13, Char.ofNat 10, Char.ofNat 13, Char.ofNat 10]

/-- The LF-LF blank-line separator. -/
def lflf : List Char := [Char.ofNat 10, Char.ofNat 10]

/-- A single CRLF, the starts_with test of line 199. -/
def crlf : List Char := [Char.ofNat 13, Char.ofNat 10]

/-- The body-start computation of send_request (lines 195-202): find the
first CRLF-CRLF, or else the first LF-LF; skip 4 or 2 characters depending
on whether the match starts with CRLF; with no match, start at 0 and return
the full response. -/
def unframe (response : List Char) : List Char :=
  let found := (findSub crlfcrlf response).orElse
    (fun _ => findSub lflf response)
  let body_start := (found.map (fun i =>
    if crlf.isPrefixOf (response.drop i) then i + 4 else i + 2)).getD 0
  response.drop body_start

/-! ### XML escaping of submitted URLs (rtorrent.rs, add_torrent_url)

add_torrent_url escapes the URL by five successive str::replace calls (a
single-character pattern replaced by its entity, which is a per-character
flat map over the string), ampersand first, and splices the result into a
fixed load.start document. -/

/-- Rust str::replace with a single-character pattern. -/
def replaceChar (c : Char) (rep : List Char) (s : List Char) : List Char :=
  s.flatMap (fun x => if x = c then rep else [x])

/-- The apostrophe character (code point 39). -/
def apos : Char := Char.ofNat 39

/-- The escaping chain of add_torrent_url (rtorrent.rs lines 534-539):
replace ampersand, then less-than, greater-than, double quote,
apostrophe. -/
def escapeXmlUrl (url : List Char) : List Char :=
  replaceChar apos ("&apos;".toList)
    (replaceChar '"' ("&quot;".toList)
      (replaceChar '>' ("&gt;".toList)
        (replaceChar '<' ("&lt;".toList)
          (replaceChar '&' ("&amp;".toList) url))))

/-- Single-pass escaping: each of the five reserved XML characters becomes
its entity exactly once, every other character is untouched.  This is the
specification-side description of escaping applied exactly once. -/
def escChar (c : Char) : List Char :=
  if c = '&' then "&amp;".toList
  else if c = '<' then "&lt;".toList
  else if c = '>' then "&gt;".toList
  else if c = '"' then "&quot;".toList
  else if c = apos then "&apos;".toList
  else [c]

/-- The load.start document of add_torrent_url before the escaped URL. -/
def loadStartXmlPre : String :=
  "<?xml version=\"1.0\"?>\n<methodCall>\n<methodName>load.start</methodName>\n<params>\n<param><value><string></string></value></param>\n<param><value><string>"

/-- The load.start document of add_torrent_url after the escaped URL. -/
def loadStartXmlPost : String :=
  "</string></value></param>\n</params>\n</methodCall>"

/-- The encoded load.start request of add_torrent_url (lines 541-551). -/
def addTorrentUrlXml (url : List Char) : List Char :=
  loadStartXmlPre.toList ++ escapeXmlUrl url ++ loadStartXmlPost.toList

lemma replaceChar_append (c : Char) (rep a b : List Char) :
    replaceChar c rep (a ++ b) =
      replaceChar c rep a ++ replaceChar c rep b := by
  simp [replaceChar]

lemma escapeXmlUrl_append (a b : List Char) :
    escapeXmlUrl (a ++ b) = escapeXmlUrl a ++ escapeXmlUrl b := by
  simp [escapeXmlUrl, replaceChar_append]

lemma escapeXmlUrl_singleton (c : Char) :
    escapeXmlUrl [c] = escChar c := by
  by_cases h1 : c = '&'
  · subst h1; decide
  by_cases h2 : c = '<'
  · subst h2; decide
  by_cases h3 : c = '>'
  · subst h3; decide
  by_cases h4 : c = '"'
  · subst h4; decide
  by_cases h5 : c = apos
  · subst h5; decide
  simp [escapeXmlUrl, replaceChar, escChar, h1, h2, h3, h4, h5]

/-! ### Base64 encoding (rtorrent.rs, base64_encode lines 578-605)

Bytes are modelled as naturals below 256.  The u32 accumulator of the
source never exceeds 2^24, so Nat models it without wraparound.  The
source indexes ALPHABET only at positions masked with 0x3F, which are in
range, so list indexing is modelled with getD. -/

/-- The alphabet byte string of base64_encode. -/
def ALPHABET : List Char :=
  "ABCDEFGHIJKLMNOPQRSTUVWXYZabcdefghijklmnopqrstuvwxyz0123456789+/".toList

/-- ALPHABET[(idx) as usize] as a character. -/
def alphabetChar (i : Nat) : Char := ALPHABET.getD i 'A'

/-- slice::chunks(3): successive sub-slices of length 3, the last one of
length 1, 2 or 3. -/
def chunks3 : List Nat → List (List Nat)
  | [] => []
  | b1 :: b2 :: b3 :: rest => [b1, b2, b3] :: chunks3 rest
  | l => [l]

/-- The accumulator loop of base64_encode:
for (i, byte) in chunk: n |= byte << (16 - i * 8). -/
def chunkWord (chunk : List Nat) : Nat :=
  chunk.enum.foldl (fun n p => n ||| (p.2 <<< (16 - p.1 * 8))) 0

/-- The four output characters of one chunk (lines 588-601): two alphabet
characters always, then either a third alphabet character or padding, then
either a fourth or padding. -/
def encodeChunk (chunk : List Nat) : List Char :=
  let n := chunkWord chunk
  [alphabetChar ((n >>> 18) &&& 63), alphabetChar ((n >>> 12) &&& 63)] ++
  (if 1 < chunk.length then [alphabetChar ((n >>> 6) &&& 63)]
   else [Char.ofNat 61]) ++
  (if 2 < chunk.length then [alphabetChar (n &&& 63)]
   else [Char.ofNat 61])

/-- base64_encode: the concatenation of the encodings of the 3-byte
chunks. -/
def base64_encode (data : List Nat) : List Char :=
  (chunks3 data).flatMap encodeChunk

/-- The standard base64 alphabet as the specification states it. -/
def refAlphabet : List Char :=
  "ABCDEFGHIJKLMNOPQRSTUVWXYZabcdefghijklmnopqrstuvwxyz0123456789+/".toList

/-- Reference base64 encoder built from the textbook index formulas for
each 3-byte group, with two or one padding characters for a trailing group
of one or two bytes, standard alphabet, no line wrapping. -/
def base64Ref : List Nat → List Char
  | [] => []
  | [b1] =>
    [refAlphabet.getD (b1 / 4) 'A', refAlphabet.getD (b1 % 4 * 16) 'A',
     Char.ofNat 61, Char.ofNat 61]
  | [b1, b2] =>
    [refAlphabet.getD (b1 / 4) 'A',
     refAlphabet.getD (b1 % 4 * 16 + b2 / 16) 'A',
     refAlphabet.getD (b2 % 16 * 4) 'A', Char.ofNat 61]
  | b1 :: b2 :: b3 :: rest =>
    [refAlphabet.getD (b1 / 4) 'A',
     refAlphabet.getD (b1 % 4 * 16 + b2 / 16) 'A',
     refAlphabet.getD (b2 % 16 * 4 + b3 / 64) 'A',
     refAlphabet.getD (b3 % 64) 'A'] ++ base64Ref rest

/-! ### Base64 arithmetic lemmas -/

lemma or_eq_add_of_mod_eq_zero (a b w : Nat) (ha : a % 2 ^ w = 0)
    (hb : b < 2 ^ w) : a ||| b = a + b := by
  obtain ⟨k, rfl⟩ := Nat.dvd_of_mod_eq_zero ha
  apply Nat.eq_of_testBit_eq
  intro i
  rw [Nat.testBit_lor, Nat.testBit_mul_pow_two_add k hb i]
  have h0 : Nat.testBit (2 ^ w * k) i =
      if i < w then false else Nat.testBit k (i - w) := by
    have := Nat.testBit_mul_pow_two_add k (Nat.two_pow_pos w) i
    simpa using this
  by_cases hi : i < w
  · simp [h0, hi]
  · rw [h0, if_neg hi, if_neg hi]
    have hbi : Nat.testBit b i = false :=
      Nat.testBit_lt_two_pow
        (lt_of_lt_of_le hb (Nat.pow_le_pow_right (by omega) (by omega)))
    simp [hbi]

lemma and_63_eq_mod (x : Nat) : x &&& 63 = x % 64 := by
  have h := Nat.and_pow_two_sub_one_eq_mod x 6
  norm_num at h
  exact h

lemma chunkWord_one (b1 : Nat) : chunkWord [b1] = b1 * 65536 := by
  simp [chunkWord, List.enum, Nat.shiftLeft_eq]

lemma chunkWord_two (b1 b2 : Nat) (h2 : b2 < 256) :
    chunkWord [b1, b2] = b1 * 65536 + b2 * 256 := by
  have hfold : chunkWord [b1, b2] = (b1 <<< 16) ||| (b2 <<< 8) := by
    simp [chunkWord, List.enum, List.enumFrom]
  rw [hfold, Nat.shiftLeft_eq, Nat.shiftLeft_eq]
  norm_num
  exact or_eq_add_of_mod_eq_zero (b1 * 65536) (b2 * 256) 16 (by omega)
    (by omega)

lemma chunkWord_three (b1 b2 b3 : Nat) (h2 : b2 < 256) (h3 : b3 < 256) :
    chunkWord [b1, b2, b3] = b1 * 65536 + b2 * 256 + b3 := by
  have hfold : chunkWord [b1, b2, b3] =
      ((b1 <<< 16) ||| (b2 <<< 8)) ||| (b3 <<< 0) := by
    simp [chunkWord, List.enum, List.enumFrom]
  rw [hfold, Nat.shiftLeft_eq, Nat.shiftLeft_eq, Nat.shiftLeft_eq]
  norm_num
  rw [or_eq_add_of_mod_eq_zero (b1 * 65536) (b2 * 256) 16 (by omega)
        (by omega),
      or_eq_add_of_mod_eq_zero (b1 * 65536 + b2 * 256) b3 8 (by omega)
        (by omega)]

lemma refAlphabet_getD (i : Nat) :
    refAlphabet.getD i 'A' = alphabetChar i := rfl

lemma encodeChunk_one (b1 : Nat) (h1 : b1 < 256) :
    encodeChunk [b1] = base64Ref [b1] := by
  simp only [encodeChunk, chunkWord_one, Nat.shiftRight_eq_div_pow,
    and_63_eq_mod, List.length_cons, List.length_nil, base64Ref,
    refAlphabet_getD]
  norm_num
  have e1 : b1 * 65536 / 262144 % 64 = b1 / 4 := by omega
  have e2 : b1 * 65536 / 4096 % 64 = b1 % 4 * 16 := by omega
  simp [e1, e2]

lemma encodeChunk_two (b1 b2 : Nat) (h1 : b1 < 256) (h2 : b2 < 256) :
    encodeChunk [b1, b2] = base64Ref [b1, b2] := by
  simp only [encodeChunk, chunkWord_two b1 b2 h2,
    Nat.shiftRight_eq_div_pow, and_63_eq_mod, List.length_cons,
    List.length_nil, base64Ref, refAlphabet_getD]
  norm_num
  have e1 : (b1 * 65536 + b2 * 256) / 262144 % 64 = b1 / 4 := by omega
  have e2 : (b1 * 65536 + b2 * 256) / 4096 % 64 =
      b1 % 4 * 16 + b2 / 16 := by omega
  have e3 : (b1 * 65536 + b2 * 256) / 64 % 64 = b2 % 16 * 4 := by omega
  simp [e1, e2, e3]

lemma encodeChunk_three (b1 b2 b3 : Nat) (h1 : b1 < 256) (h2 : b2 < 256)
    (h3 : b3 < 256) :
    encodeChunk [b1, b2, b3] =
      [alphabetChar (b1 / 4), alphabetChar (b1 % 4 * 16 + b2 / 16),
       alphabetChar (b2 % 16 * 4 + b3 / 64), alphabetChar (b3 % 64)] := by
  simp only [encodeChunk, chunkWord_three b1 b2 b3 h2 h3,
    Nat.shiftRight_eq_div_pow, and_63_eq_mod, List.length_cons,
    List.length_nil]
  norm_num
  have e1 : (b1 * 65536 + b2 * 256 + b3) / 262144 % 64 = b1 / 4 := by
    omega
  have e2 : (b1 * 65536 + b2 * 256 + b3) / 4096 % 64 =
      b1 % 4 * 16 + b2 / 16 := by omega
  have e3 : (b1 * 65536 + b2 * 256 + b3) / 64 % 64 =
      b2 % 16 * 4 + b3 / 64 := by omega
  have e4 : (b1 * 65536 + b2 * 256 + b3) % 64 = b3 % 64 := by omega
  simp [e1, e2, e3, e4]

/-! ### Starred set (state.rs, toggle_star) -/

/-- Mirrors AppState::toggle_star (state.rs lines 50-59): if the hash is in
the starred set, remove it and return false, else insert it and return true.
The HashSet of the source is modelled as a Finset of strings. -/
def toggle_star (starred : Finset String) (hash : String) :
    Finset String × Bool :=
  if hash ∈ starred then (starred.erase hash, false)
  else (insert hash starred, true)

end VibeTorrent

namespace VibeTorrent

/-! ### Theorems for claims C1 and C10 -/

/-- Claim C1: for every decoded row the derived lifecycle state is a pure
function of the four flags and the message, computed by the first-match-wins
precedence of the specification (hashing, then error message, then not
active regardless of open, then seeding, else downloading); in particular a
set hashing flag always yields Hashing. -/
theorem claim_C1_lifecycle_precedence (a o h c : Bool) (m : String) :
    classifyState a o h c m = specLifecycleState a o h c m ∧
    (h = true → classifyState a o h c m = TorrentState.Hashing) := by
  constructor
  · cases a <;> cases o <;> cases h <;>
      simp [classifyState, specLifecycleState]
  · intro hh
    subst hh
    simp [classifyState]

/-- Witness for C1 at the concrete input from the specification:
(active, open, hashing, complete, message) = (true, true, true, true, "")
classifies as Hashing. -/
theorem claim_C1_witness :
    classifyState true true true true "" = TorrentState.Hashing :=
  (claim_C1_lifecycle_precedence true true true true "").2 rfl

/-- Claim C10: toggle_star flips exactly the given hash's membership in the
starred set, leaves every other identifier unchanged, returns true exactly
when the hash is a member afterwards, and applying it twice restores the
original set. -/
theorem claim_C10_toggle_star (starred : Finset String) (h : String) :
    ((h ∈ (toggle_star starred h).1) ↔ ¬ h ∈ starred) ∧
    (∀ x, x ≠ h → ((x ∈ (toggle_star starred h).1) ↔ x ∈ starred)) ∧
    ((toggle_star starred h).2 = true ↔ h ∈ (toggle_star starred h).1) ∧
    (toggle_star (toggle_star starred h).1 h).1 = starred := by
  by_cases hm : h ∈ starred
  · refine ⟨?_, ?_, ?_, ?_⟩
    · simp [toggle_star, hm]
    · intro x hx
      simp [toggle_star, hm, Finset.mem_erase, hx]
    · simp [toggle_star, hm, Finset.mem_erase]
    · simp [toggle_star, hm, Finset.mem_erase, Finset.insert_erase hm]
  · refine ⟨?_, ?_, ?_, ?_⟩
    · simp [toggle_star, hm]
    · intro x hx
      simp [toggle_star, hm, Finset.mem_insert, hx]
    · simp [toggle_star, hm, Finset.mem_insert]
    · simp [toggle_star, hm, Finset.mem_insert, Finset.erase_insert hm]

/-- Witness for C10 at a concrete input: toggling "a" on the empty set does
not change membership of the distinct identifier "b". -/
theorem claim_C10_witness :
    ("b" ∈ (toggle_star (∅ : Finset String) "a").1) ↔
      "b" ∈ (∅ : Finset String) :=
  (claim_C10_toggle_star (∅ : Finset String) "a").2.1 "b" (by decide)

/-- Counterexample to claim C2 as stated: a decoded row with 13 scalar
values (not equal to the 12 requested fields) still contributes a mapped
record, so row contribution is not equivalent to arity exactly 12. -/
theorem claim_C2_counterexample :
    (parseTorrents (responseEvents [List.replicate 13 "1"])).length = 1 ∧
    (List.replicate 13 "1").length ≠ 12 := by
  constructor
  · rw [responseEvents, List.flatMap_cons, List.flatMap_nil,
        List.append_nil]
    rw [show ([XmlEvent.startTag "methodResponse",
         XmlEvent.startTag "params", XmlEvent.startTag "param",
         XmlEvent.startTag "value", XmlEvent.startTag "array",
         XmlEvent.startTag "data"] : List XmlEvent) ++
         rowEvents (List.replicate 13 "1") ++
         [XmlEvent.endTag "data", XmlEvent.endTag "array",
          XmlEvent.endTag "value", XmlEvent.endTag "param",
          XmlEvent.endTag "params", XmlEvent.endTag "methodResponse"] =
        [XmlEvent.startTag "methodResponse", XmlEvent.startTag "params",
         XmlEvent.startTag "param", XmlEvent.startTag "value",
         XmlEvent.startTag "array", XmlEvent.startTag "data"] ++
        (rowEvents (List.replicate 13 "1") ++
         [XmlEvent.endTag "data", XmlEvent.endTag "array",
          XmlEvent.endTag "value", XmlEvent.endTag "param",
          XmlEvent.endTag "params", XmlEvent.endTag "methodResponse"])
      from by simp]
    rw [parseTorrents, List.foldl_append, List.foldl_append]
    rw [show List.foldl step initState
        [XmlEvent.startTag "methodResponse", XmlEvent.startTag "params",
         XmlEvent.startTag "param", XmlEvent.startTag "value",
         XmlEvent.startTag "array", XmlEvent.startTag "data"] =
        { torrents := [], currentValues := [], inValueTag := false,
          valueCollected := false, inArray := false, arrayDepth := 1 }
      from by simp [initState, step, isScalarTag]]
    rw [foldl_rowEvents]
    simp [step, isScalarTag]
  · decide

/-- Claim C2 (amended): a decoded row contributes a mapped record exactly
when it holds at least 12 decoded scalar values; every shorter row is
excluded from the output entirely, and each kept row is mapped from its own
values, so short rows never shift the field alignment of later rows. -/
theorem claim_C2_row_arity (rows : List (List String)) :
    parseTorrents (responseEvents rows) =
      (rows.filter (fun vs => 12 ≤ vs.length)).map mkTorrent := by
  rw [responseEvents]
  rw [show ([XmlEvent.startTag "methodResponse",
       XmlEvent.startTag "params", XmlEvent.startTag "param",
       XmlEvent.startTag "value", XmlEvent.startTag "array",
       XmlEvent.startTag "data"] : List XmlEvent) ++
       rows.flatMap rowEvents ++
       [XmlEvent.endTag "data", XmlEvent.endTag "array",
        XmlEvent.endTag "value", XmlEvent.endTag "param",
        XmlEvent.endTag "params", XmlEvent.endTag "methodResponse"] =
      [XmlEvent.startTag "methodResponse", XmlEvent.startTag "params",
       XmlEvent.startTag "param", XmlEvent.startTag "value",
       XmlEvent.startTag "array", XmlEvent.startTag "data"] ++
      (rows.flatMap rowEvents ++
       [XmlEvent.endTag "data", XmlEvent.endTag "array",
        XmlEvent.endTag "value", XmlEvent.endTag "param",
        XmlEvent.endTag "params", XmlEvent.endTag "methodResponse"])
    from by simp]
  rw [parseTorrents, List.foldl_append, List.foldl_append]
  rw [show List.foldl step initState
      [XmlEvent.startTag "methodResponse", XmlEvent.startTag "params",
       XmlEvent.startTag "param", XmlEvent.startTag "value",
       XmlEvent.startTag "array", XmlEvent.startTag "data"] =
      { torrents := [], currentValues := [], inValueTag := false,
        valueCollected := false, inArray := false, arrayDepth := 1 }
    from by simp [initState, step, isScalarTag]]
  rw [foldl_rowsChain]
  simp [step, isScalarTag]

/-- Claim C4: inside a row, a scalar tag that opens and closes with no text
content contributes exactly one empty-string value, and so does a
self-closing empty scalar tag. -/
theorem claim_C4_empty_scalar (s : ParseState) (n : String)
    (hn : isScalarTag n = true) (hA : s.inArray = true) :
    (List.foldl step s
        [XmlEvent.startTag n, XmlEvent.endTag n]).currentValues =
      s.currentValues ++ [""] ∧
    (step s (XmlEvent.emptyTag n)).currentValues =
      s.currentValues ++ [""] := by
  have hne : ¬ n = "array" := by
    intro h
    subst h
    simp [isScalarTag] at hn
  constructor
  · simp only [List.foldl_cons, List.foldl_nil]
    rw [show step s (XmlEvent.startTag n) =
        { s with inValueTag := true, valueCollected := false } from by
      simp [step, hne, hn, hA]]
    simp [step, hne, hn, hA]
  · simp [step, hn, hA]

/-! ### Correctness of findSub -/

lemma findSub_some (needle hay : List Char) :
    ∀ i, findSub needle hay = some i →
      occursAt needle hay i ∧ ∀ j, j < i → ¬ occursAt needle hay j := by
  induction hay with
  | nil =>
    intro i h
    unfold findSub at h
    by_cases hp : needle.isPrefixOf ([] : List Char)
    · rw [if_pos hp] at h
      injection h with h0
      subst h0
      exact ⟨by simpa [occursAt] using hp,
        fun j hj => absurd hj (Nat.not_lt_zero j)⟩
    · rw [if_neg hp] at h
      cases h
  | cons c t ih =>
    intro i h
    unfold findSub at h
    by_cases hp : needle.isPrefixOf (c :: t)
    · rw [if_pos hp] at h
      injection h with h0
      subst h0
      exact ⟨by simpa [occursAt] using hp,
        fun j hj => absurd hj (Nat.not_lt_zero j)⟩
    · rw [if_neg hp] at h
      obtain ⟨k, hk, rfl⟩ :
          ∃ k, findSub needle t = some k ∧ i = k + 1 := by
        cases hf : findSub needle t with
        | none => rw [hf] at h; cases h
        | some k =>
          rw [hf] at h
          injection h with h0
          exact ⟨k, rfl, h0.symm⟩
      obtain ⟨h1, h2⟩ := ih k hk
      refine ⟨by simpa [occursAt] using h1, ?_⟩
      intro j hj
      cases j with
      | zero => simpa [occursAt] using hp
      | succ m =>
        intro hocc
        exact h2 m (by omega) (by simpa [occursAt] using hocc)

lemma findSub_none (needle hay : List Char) :
    findSub needle hay = none → ∀ j, ¬ occursAt needle hay j := by
  induction hay with
  | nil =>
    intro h j
    unfold findSub at h
    by_cases hp : needle.isPrefixOf ([] : List Char)
    · rw [if_pos hp] at h
      cases h
    · rw [if_neg hp] at h
      simp only [occursAt, List.drop_nil]
      simpa using hp
  | cons c t ih =>
    intro h j
    unfold findSub at h
    by_cases hp : needle.isPrefixOf (c :: t)
    · rw [if_pos hp] at h
      cases h
    · rw [if_neg hp] at h
      have ht : findSub needle t = none := by
        cases hf : findSub needle t with
        | none => rfl
        | some k => rw [hf] at h; cases h
      cases j with
      | zero => simpa [occursAt] using hp
      | succ m =>
        intro hocc
        exact ih ht m (by simpa [occursAt] using hocc)

lemma findSub_eq_some_of_first (needle hay : List Char) (i : Nat)
    (h1 : occursAt needle hay i)
    (h2 : ∀ j, j < i → ¬ occursAt needle hay j) :
    findSub needle hay = some i := by
  cases hf : findSub needle hay with
  | none => exact absurd h1 (findSub_none needle hay hf i)
  | some k =>
    obtain ⟨hk1, hk2⟩ := findSub_some needle hay k hf
    rcases Nat.lt_trichotomy k i with hlt | heq | hgt
    · exact absurd hk1 (h2 k hlt)
    · rw [heq]
    · exact absurd h1 (hk2 i hgt)

lemma findSub_eq_none_of_nowhere (needle hay : List Char)
    (h : ∀ j, ¬ occursAt needle hay j) : findSub needle hay = none := by
  cases hf : findSub needle hay with
  | none => rfl
  | some k => exact absurd (findSub_some needle hay k hf).1 (h k)

lemma crlf_isPrefixOf_of_crlfcrlf (l : List Char)
    (h : crlfcrlf.isPrefixOf l = true) : crlf.isPrefixOf l = true := by
  match l with
  | [] => simp [crlfcrlf, List.isPrefixOf] at h
  | [a] => simp [crlfcrlf, List.isPrefixOf] at h
  | a :: b :: rest =>
    simp only [crlfcrlf, crlf, List.isPrefixOf, Bool.and_eq_true] at h ⊢
    exact ⟨h.1, h.2.1, by simp⟩

lemma crlf_not_isPrefixOf_of_lflf (l : List Char)
    (h : lflf.isPrefixOf l = true) : crlf.isPrefixOf l = false := by
  match l with
  | [] => simp [lflf, List.isPrefixOf] at h
  | [a] => simp [lflf, List.isPrefixOf] at h
  | a :: b :: rest =>
    simp only [lflf, List.isPrefixOf, Bool.and_eq_true, beq_iff_eq] at h
    obtain ⟨rfl, -⟩ := h
    simp [crlf, List.isPrefixOf]

lemma strBytes_append (a b : String) :
    strBytes (a ++ b) = strBytes a ++ strBytes b := by
  simp [strBytes]

/-- Claim C5: for every XML payload the framed request is exactly the
netstring-style envelope of the specification: the decimal byte length of
the header block, a colon, the null-separated header block with the
payload's content length, the SCGI protocol marker, the POST method and
the /RPC2 path, a comma, then the raw payload bytes and nothing after
them. -/
theorem claim_C5_wire_envelope (xml_body : List Nat) :
    frame xml_body = specEnvelope xml_body := by
  have hb : scgiHeaders xml_body.length =
      ([(strBytes "CONTENT_LENGTH", strBytes (toString xml_body.length)),
        (strBytes "SCGI", strBytes "1"),
        (strBytes "REQUEST_METHOD", strBytes "POST"),
        (strBytes "REQUEST_URI", strBytes "/RPC2")] :
        List (List Nat × List Nat)).flatMap
        (fun kv => kv.1 ++ [0] ++ kv.2 ++ [0]) := by
    simp [scgiHeaders, List.append_assoc]
  simp only [frame, specEnvelope]
  rw [← hb, strBytes_append]
  have hcolon : strBytes ":" = [58] := rfl
  rw [hcolon]

/-- Claim C8: for every byte sequence the hand-written base64 encoder
produces the same output as the reference encoder built from the standard
definition: standard alphabet, '=' padding to a multiple of four
characters, no line wrapping.  This covers all lengths, in particular 0,
1, 2, 3 and 100. -/
theorem claim_C8_base64_matches_reference :
    ∀ (data : List Nat), (∀ b ∈ data, b < 256) →
      base64_encode data = base64Ref data
  | [], _ => rfl
  | [b1], h => by
    have h1 : b1 < 256 := h b1 (by simp)
    have hchunks : chunks3 [b1] = [[b1]] := rfl
    rw [base64_encode, hchunks, List.flatMap_cons, List.flatMap_nil,
        List.append_nil, encodeChunk_one b1 h1]
  | [b1, b2], h => by
    have h1 : b1 < 256 := h b1 (by simp)
    have h2 : b2 < 256 := h b2 (by simp)
    have hchunks : chunks3 [b1, b2] = [[b1, b2]] := rfl
    rw [base64_encode, hchunks, List.flatMap_cons, List.flatMap_nil,
        List.append_nil, encodeChunk_two b1 b2 h1 h2]
  | b1 :: b2 :: b3 :: rest, h => by
    have h1 : b1 < 256 := h b1 (by simp)
    have h2 : b2 < 256 := h b2 (by simp)
    have h3 : b3 < 256 := h b3 (by simp)
    have ih := claim_C8_base64_matches_reference rest
      (fun b hb => h b (by simp [hb]))
    have hchunks : chunks3 (b1 :: b2 :: b3 :: rest) =
        [b1, b2, b3] :: chunks3 rest := rfl
    rw [base64_encode, hchunks, List.flatMap_cons,
        encodeChunk_three b1 b2 b3 h1 h2 h3]
    rw [base64_encode] at ih
    rw [ih]
    rfl

/-- Witness for C8 at a concrete input: the three bytes 77, 97, 110 are
below 256 and both encoders agree on them. -/
theorem claim_C8_witness :
    (∀ b ∈ [77, 97, 110], b < 256) ∧
      base64_encode [77, 97, 110] = base64Ref [77, 97, 110] :=
  ⟨by decide, claim_C8_base64_matches_reference [77, 97, 110] (by decide)⟩

/-- Claim C7: escaping the URL equals a single simultaneous pass in which
each occurrence of one of the five reserved XML characters becomes its
entity exactly once (so no occurrence is left unescaped and none is
escaped twice, in particular an ampersand becomes one single literal
ampersand entity), and the encoded load.start request embeds exactly that
once-escaped URL between the fixed document parts. -/
theorem claim_C7_escaped_exactly_once (url : List Char) :
    escapeXmlUrl url = url.flatMap escChar ∧
    addTorrentUrlXml url =
      loadStartXmlPre.toList ++ url.flatMap escChar ++
        loadStartXmlPost.toList := by
  have hmain : ∀ u : List Char, escapeXmlUrl u = u.flatMap escChar := by
    intro u
    induction u with
    | nil => decide
    | cons c t ih =>
      have : escapeXmlUrl (c :: t) = escapeXmlUrl ([c] ++ t) := rfl
      rw [this, escapeXmlUrl_append, escapeXmlUrl_singleton,
          List.flatMap_cons, ih]
  exact ⟨hmain url, by rw [addTorrentUrlXml, hmain url]⟩

/-- Counterexample to claim C6 as stated: in this response the first blank
line of either kind is the LF-LF at index 1 (nothing matches at index 0,
and no CRLF-CRLF starts at 0 or 1), yet unframe does not return the
remainder after that first blank line, because the code prefers a CRLF-CRLF
found anywhere later in the response. -/
theorem claim_C6_counterexample :
    occursAt lflf (("a\n\nbb\r\n\r\nc").toList) 1 ∧
    ¬ occursAt lflf (("a\n\nbb\r\n\r\nc").toList) 0 ∧
    ¬ occursAt crlfcrlf (("a\n\nbb\r\n\r\nc").toList) 0 ∧
    ¬ occursAt crlfcrlf (("a\n\nbb\r\n\r\nc").toList) 1 ∧
    unframe (("a\n\nbb\r\n\r\nc").toList) ≠
      (("a\n\nbb\r\n\r\nc").toList).drop (1 + 2) := by
  decide

/-- Claim C6 (amended): unframing locates the first CRLF-CRLF in the
response; only when no CRLF-CRLF occurs anywhere does it locate the first
LF-LF.  It discards everything through the located separator and returns
the remainder verbatim, and for every response containing no blank-line
separator of either kind the full response is returned unmodified (the
function is total, so the framer never raises). -/
theorem claim_C6_unframe (s : List Char) :
    ((∀ j, ¬ occursAt crlfcrlf s j) → (∀ j, ¬ occursAt lflf s j) →
      unframe s = s) ∧
    (∀ i, occursAt crlfcrlf s i →
      (∀ j, j < i → ¬ occursAt crlfcrlf s j) →
      unframe s = s.drop (i + 4)) ∧
    (∀ i, (∀ j, ¬ occursAt crlfcrlf s j) → occursAt lflf s i →
      (∀ j, j < i → ¬ occursAt lflf s j) →
      unframe s = s.drop (i + 2)) := by
  refine ⟨?_, ?_, ?_⟩
  · intro hc hl
    rw [unframe, findSub_eq_none_of_nowhere crlfcrlf s hc,
        findSub_eq_none_of_nowhere lflf s hl]
    simp [Option.orElse]
  · intro i h1 h2
    rw [unframe, findSub_eq_some_of_first crlfcrlf s i h1 h2]
    have hpre : crlf <+: s.drop i :=
      List.isPrefixOf_iff_prefix.mp
        (crlf_isPrefixOf_of_crlfcrlf (s.drop i) h1)
    simp [Option.orElse, hpre]
  · intro i hc h1 h2
    rw [unframe, findSub_eq_none_of_nowhere crlfcrlf s hc,
        findSub_eq_some_of_first lflf s i h1 h2]
    have hpre : ¬ crlf <+: s.drop i := by
      rw [← List.isPrefixOf_iff_prefix,
          crlf_not_isPrefixOf_of_lflf (s.drop i) h1]
      simp
    simp [Option.orElse, hpre]

/-- Witness for C6 at a concrete input: the response has its first
CRLF-CRLF at index 1, so unframing drops the five leading characters. -/
theorem claim_C6_witness :
    unframe (("h\r\n\r\nbody").toList) =
      (("h\r\n\r\nbody").toList).drop (1 + 4) :=
  (claim_C6_unframe (("h\r\n\r\nbody").toList)).2.1 1 (by decide)
    (fun j hj => by
      obtain rfl : j = 0 := by omega
      decide)

/-- Counterexample to claim C3 as stated: with zero subscribers on both
feeds the tick still performs a remote call (the items fetch is
unconditional in the loop). -/
theorem claim_C3_counterexample :
    (pollTick false false (Except.ok []) (Except.ok ⟨0, 0, 0, 0⟩)
        ⟨none, none⟩).2.1 ≠ [] := by
  simp [pollTick]

/-- Claim C3 (amended): in a tick with zero live subscribers on both feeds
the poller performs exactly one remote call, the items fetch; it performs
no counters fetch, publishes nothing on either feed, and leaves both cached
snapshots unchanged, whatever the fetches would return. -/
theorem claim_C3_no_subscriber_tick
    (torrentsResult : Except String (List PollTorrent))
    (statsResult : Except String GlobalStats) (c : PollerCache) :
    (pollTick false false torrentsResult statsResult c).2.1 =
      [RemoteCall.getTorrents] ∧
    (pollTick false false torrentsResult statsResult c).2.2 = [] ∧
    (pollTick false false torrentsResult statsResult c).1 = c := by
  cases torrentsResult with
  | ok torrents => simp [pollTick]
  | error e => simp [pollTick]

/-- Claim C9: when the items fetch fails, the tick publishes nothing and
leaves the whole cache unchanged; when the counters fetch fails, the tick
publishes at most the items snapshot (never a counters publication) and
leaves the cached counters unchanged; refresh_cache on a failed fetch
publishes nothing and leaves the cache unchanged.  Failures are thus never
fatal: the tick is a total function that degrades to skipped
publications. -/
theorem claim_C9_failure_skips_publication (need_torrents need_stats : Bool)
    (e : String) (statsResult : Except String GlobalStats)
    (ts : List PollTorrent) (c : PollerCache) :
    ((pollTick need_torrents need_stats (Except.error e) statsResult c).1
        = c ∧
      (pollTick need_torrents need_stats (Except.error e) statsResult
        c).2.2 = []) ∧
    ((pollTick need_torrents need_stats (Except.ok ts) (Except.error e)
        c).1.lastStats = c.lastStats ∧
      (pollTick need_torrents need_stats (Except.ok ts) (Except.error e)
        c).2.2 =
        if need_torrents then [FeedEvent.torrentsPublished ts] else []) ∧
    refreshCache (Except.error e) c = (c, []) := by
  refine ⟨⟨?_, ?_⟩, ⟨?_, ?_⟩, ?_⟩
  · simp [pollTick]
  · simp [pollTick]
  · cases need_stats <;> cases need_torrents <;> simp [pollTick]
  · cases need_stats <;> cases need_torrents <;> simp [pollTick]
  · simp [refreshCache]

/-- Witness for C4 at a concrete input: an empty string tag and a
self-closing string tag inside a row each contribute one empty string. -/
theorem claim_C4_witness :
    (List.foldl step
        { torrents := [], currentValues := [], inValueTag := false,
          valueCollected := false, inArray := true, arrayDepth := 2 }
        [XmlEvent.startTag "string", XmlEvent.endTag "string"]
      ).currentValues = [] ++ [""] ∧
    (step
        { torrents := [], currentValues := [], inValueTag := false,
          valueCollected := false, inArray := true, arrayDepth := 2 }
        (XmlEvent.emptyTag "string")).currentValues = [] ++ [""] :=
  claim_C4_empty_scalar
    { torrents := [], currentValues := [], inValueTag := false,
      valueCollected := false, inArray := true, arrayDepth := 2 }
    "string" (by decide) rfl

end VibeTorrent
